/-
Verification of the hybrid search engine in `src/data/hybrid_embedding.py`
(class `HybridSearchEngine` and the module-level helpers around it).

The Python code is shallowly embedded: floats become rationals (`ℚ`),
numpy arrays become `List ℚ`, Python dict documents become the `Doc`
structure, and the two external scoring libraries (`rank_bm25.BM25Okapi`
and sklearn's `TfidfVectorizer`/`cosine_similarity`) are kept abstract as
function parameters, except for the parts of their behaviour the engine
code observably depends on (per-document score vectors; the
division-by-zero that `BM25Okapi.__init__` performs on an empty corpus).
Fallible Python code (raising) is embedded with `Except String`.
-/
import Mathlib

/-- ASCII fragment of Python's regex class `\s` (whitespace):
space, tab, newline, carriage return, vertical tab, form feed. -/
def isSpaceChar (c : Char) : Bool :=
  c = ' ' || c = '\t' || c = '\n' || c = '\r' || c = '\x0b' || c = '\x0c'

/-- ASCII fragment of Python's regex class `\w` (word character):
alphanumeric or underscore. -/
def isWordChar (c : Char) : Bool :=
  c.isAlphanum || c = '_'

/-- One character step of `re.sub(r'[^\w\s]', ' ', text)`: a character that
is neither a word character nor whitespace becomes a space. -/
def replaceNonWord (c : Char) : Char :=
  if isWordChar c || isSpaceChar c then c else ' '

/-- Python `str.split()` with no argument: split on runs of whitespace and
discard empty pieces. `acc` holds the (reversed) current token. -/
def splitWS : List Char → List Char → List (List Char)
  | [], acc => if acc.isEmpty then [] else [acc.reverse]
  | c :: cs, acc =>
    if isSpaceChar c then
      if acc.isEmpty then splitWS cs [] else acc.reverse :: splitWS cs []
    else
      splitWS cs (c :: acc)

/-- One character of `text.lower()` followed by the `re.sub` replacement
(lowercasing per character is the same transformation as lowering the
whole string first). -/
def lowerReplace (c : Char) : Char := replaceNonWord c.toLower

/-- Embeds `HybridSearchEngine._tokenize`:
`text = re.sub(r'[^\w\s]', ' ', text.lower())` then `return text.split()`. -/
def _tokenize (text : String) : List String :=
  (splitWS (text.toList.map lowerReplace) []).map (fun cs => String.mk cs)

/-- The tokenizer described by the spec's words: replaces every character
that is not alphanumeric or whitespace with a space (so it would also
replace an underscore, which Python's `\w` keeps). Used only to compare
the spec sentence against `_tokenize`. -/
def claimReplace (c : Char) : Char :=
  if c.isAlphanum || isSpaceChar c then c else ' '

/-- Lowercasing composed with the spec-sentence replacement. -/
def claimLowerReplace (c : Char) : Char := claimReplace c.toLower

/-- Tokenizer following the spec sentence literally; see `claimReplace`. -/
def claimTokenize (text : String) : List String :=
  (splitWS (text.toList.map claimLowerReplace) []).map (fun cs => String.mk cs)

/-- Embeds `np.min` over a score vector (the engine only calls it on non-empty
input; the `headD 0` seed is irrelevant there). -/
def npMin (scores : List ℚ) : ℚ := scores.foldl min (scores.headD 0)

/-- Embeds `np.max` over a score vector. -/
def npMax (scores : List ℚ) : ℚ := scores.foldl max (scores.headD 0)

/-- Embeds `HybridSearchEngine._normalize_scores`: empty input maps to
`np.zeros_like` (empty); all-equal scores map to `0.5` everywhere;
otherwise min-max rescaling `(s - min) / (max - min)`. -/
def _normalize_scores (scores : List ℚ) : List ℚ :=
  if scores.length = 0 then []
  else if npMax scores = npMin scores then scores.map (fun _ => 1/2)
  else scores.map (fun s => (s - npMin scores) / (npMax scores - npMin scores))

/-- A document as consumed by `preprocess_documents` with the default
field names: a dict `{'id': ..., 'text': ...}`. -/
structure Doc where
  id : String
  text : String
deriving DecidableEq, Repr

/-- One entry of the list built by `find_best_matches` (the dict with keys
`document`, `score`, `bm25_score`, `tfidf_score`, `document_id`). -/
structure MatchResult where
  document : Doc
  score : ℚ
  bm25_score : ℚ
  tfidf_score : ℚ
  document_id : String
deriving DecidableEq, Repr

/-- The mutable state of a `HybridSearchEngine` instance: exactly the
seven attributes assigned in `__init__` / `preprocess_documents` /
`load_index`.  The fitted `TfidfVectorizer` is abstracted to the function
the engine observably uses: `transform` composed with `cosine_similarity`
needs only the query's weighted term vector, so we store
`tfidf_vectorizer : String → List ℚ`.  A fitted `BM25Okapi` object is
abstracted to its `get_scores` method, `List String → List ℚ` (tokenized
query to one raw score per document). -/
structure HybridSearchEngine where
  tfidf_vectorizer : String → List ℚ
  bm25 : Option (List String → List ℚ)
  tfidf_matrix : Option (List (List ℚ))
  documents : List Doc
  document_ids : List String
  tokenized_docs : List (List String)
  is_fitted : Bool

/-- Embeds `HybridSearchEngine.__init__`: the vectorizer is constructed but
unfitted (its `transform` is unreachable behind the `is_fitted` guard, so
the placeholder function is never observed), `bm25` and `tfidf_matrix`
are `None`, the lists are empty and `is_fitted` is `False`. -/
def HybridSearchEngine.init : HybridSearchEngine :=
  { tfidf_vectorizer := fun _ => []
    bm25 := none
    tfidf_matrix := none
    documents := []
    document_ids := []
    tokenized_docs := []
    is_fitted := false }

/-- The dict pickled by `save_index` / unpickled by `load_index`: the same
seven attributes. -/
structure IndexData where
  tfidf_vectorizer : String → List ℚ
  bm25 : Option (List String → List ℚ)
  tfidf_matrix : Option (List (List ℚ))
  documents : List Doc
  document_ids : List String
  tokenized_docs : List (List String)
  is_fitted : Bool

/-- Dot product of two weighted term vectors. -/
def dotProduct (v w : List ℚ) : ℚ :=
  (List.zipWith (fun a b => a * b) v w).sum

/-- Embeds `cosine_similarity(query_tfidf, self.tfidf_matrix).flatten()`:
`TfidfVectorizer` L2-normalizes both the stored rows and the transformed
query, so the cosine similarity of the query against each row is the
plain dot product. -/
def cosine_scores (query_tfidf : List ℚ) (tfidf_matrix : List (List ℚ)) : List ℚ :=
  tfidf_matrix.map (fun row => dotProduct query_tfidf row)

/-- The loop `for i, doc in enumerate(self.documents)` in
`find_best_matches`, building one result dict per document with
`combined_score = bm25_weight * bm25_score + tfidf_weight * tfidf_score`.
The Python code indexes `document_ids` and the two normalized score
vectors directly at `i`; those lists are positionally aligned with
`documents` in every state the engine API can produce, so out-of-range
access is embedded with a default rather than an exception. -/
def combinedScores (documents : List Doc) (document_ids : List String)
    (bm25_scores_norm tfidf_scores_norm : List ℚ)
    (bm25_weight tfidf_weight : ℚ) : List MatchResult :=
  (List.range documents.length).map (fun i =>
    { document := documents.getD i ⟨"", ""⟩
      score := bm25_weight * bm25_scores_norm.getD i 0
                 + tfidf_weight * tfidf_scores_norm.getD i 0
      bm25_score := bm25_scores_norm.getD i 0
      tfidf_score := tfidf_scores_norm.getD i 0
      document_id := document_ids.getD i "" })

/-- Insertion step of a stable descending sort: `x` goes in front of the
first element whose key is less than or equal to `key x`; elements placed
earlier keep their position. -/
def insertDesc {α : Type} (key : α → ℚ) (x : α) : List α → List α
  | [] => [x]
  | y :: ys => if key y ≤ key x then x :: y :: ys else y :: insertDesc key x ys

/-- Embeds `list.sort(key=..., reverse=True)`: Python's sort is stable, and with
`reverse=True` equal-key elements still keep their original relative
order.  Embedded as a stable insertion sort: processing from the right,
each element is inserted in front of the first later element whose key
does not exceed its own. -/
def sortDesc {α : Type} (key : α → ℚ) : List α → List α
  | [] => []
  | x :: xs => insertDesc key x (sortDesc key xs)

/-- Python slice `l[:k]` for an arbitrary (possibly negative) `k`:
a nonnegative `k` takes the first `min k (len l)` elements; a negative
`k` stops `|k|` elements before the end, i.e. takes
`max 0 (len l + k)` elements. -/
def pySlice {α : Type} (l : List α) (k : Int) : List α :=
  if 0 ≤ k then l.take k.toNat else l.take ((l.length + k).toNat)

/-- The message of the `ValueError` raised by `find_best_matches` on an
unfitted engine. -/
def notFittedMsg : String := "Documents must be preprocessed before searching"

/-- Embeds `HybridSearchEngine.find_best_matches`: guard on `is_fitted`, tokenize
the query, score with BM25 and with TF-IDF cosine similarity, min-max
normalize both score vectors, combine them with the caller's weights,
sort by combined score descending (stable) and return the `[:top_k]`
slice.  An engine whose `bm25` or `tfidf_matrix` is still `None` despite
`is_fitted` (unreachable through the class API) would raise an
`AttributeError` at the corresponding call. -/
def HybridSearchEngine.find_best_matches (self : HybridSearchEngine)
    (query : String) (top_k : Int := 10)
    (bm25_weight : ℚ := 4/10) (tfidf_weight : ℚ := 6/10) :
    Except String (List MatchResult) :=
  if self.is_fitted = false then .error notFittedMsg
  else
    match self.bm25, self.tfidf_matrix with
    | some bm25, some tfidf_matrix =>
      let tokenized_query := _tokenize query
      let bm25_scores := bm25 tokenized_query
      let query_tfidf := self.tfidf_vectorizer query
      let tfidf_scores := cosine_scores query_tfidf tfidf_matrix
      let bm25_scores_norm := _normalize_scores bm25_scores
      let tfidf_scores_norm := _normalize_scores tfidf_scores
      let combined := combinedScores self.documents self.document_ids
          bm25_scores_norm tfidf_scores_norm bm25_weight tfidf_weight
      .ok (pySlice (sortDesc (fun r => r.score) combined) top_k)
    | _, _ => .error "AttributeError"

/-- Embeds `find_best_matches` as a state transformer on the engine (Python
methods receive `self` and may assign to its attributes; this method's
body contains no attribute assignment, so the post-state is the
pre-state). -/
def HybridSearchEngine.find_best_matchesS (self : HybridSearchEngine)
    (query : String) (top_k : Int := 10)
    (bm25_weight : ℚ := 4/10) (tfidf_weight : ℚ := 6/10) :
    Except String (List MatchResult) × HybridSearchEngine :=
  (self.find_best_matches query top_k bm25_weight tfidf_weight, self)

/-- Embeds `HybridSearchEngine.preprocess_documents` with the default
`text_field`/`id_field`.  `bm25Okapi` abstracts `BM25Okapi.__init__` on a
non-empty corpus (returning the fitted `get_scores`), and
`tfidfFitTransform` abstracts `TfidfVectorizer.fit_transform` (returning
the fitted query transform and the document matrix).  On an empty corpus
`BM25Okapi.__init__` computes `avgdl = num_doc / self.corpus_size` with
`corpus_size = 0` and raises `ZeroDivisionError` (rank_bm25 library
behaviour), after `documents`, `document_ids` and `tokenized_docs` have
already been assigned but before `bm25`, `tfidf_matrix` and `is_fitted`
are touched. -/
def HybridSearchEngine.preprocess_documents
    (bm25Okapi : List (List String) → (List String → List ℚ))
    (tfidfFitTransform : List String → ((String → List ℚ) × List (List ℚ)))
    (self : HybridSearchEngine) (documents : List Doc) :
    Except String Unit × HybridSearchEngine :=
  let texts := documents.map (fun doc => doc.text)
  let ids := documents.map (fun doc => doc.id)
  let tokenized_docs := texts.map _tokenize
  let self1 := { self with documents := documents, document_ids := ids,
                           tokenized_docs := tokenized_docs }
  if documents.length = 0 then
    (.error "ZeroDivisionError", self1)
  else
    let fitted := tfidfFitTransform texts
    (.ok (), { self1 with bm25 := some (bm25Okapi tokenized_docs),
                          tfidf_vectorizer := fitted.1,
                          tfidf_matrix := some fitted.2,
                          is_fitted := true })

/-- Embeds `HybridSearchEngine.save_index`: the pickled dict captures all seven
attributes (file I/O itself is outside the embedding; `save` produces the
serialized record). -/
def HybridSearchEngine.save_index (self : HybridSearchEngine) : IndexData :=
  { tfidf_vectorizer := self.tfidf_vectorizer
    bm25 := self.bm25
    tfidf_matrix := self.tfidf_matrix
    documents := self.documents
    document_ids := self.document_ids
    tokenized_docs := self.tokenized_docs
    is_fitted := self.is_fitted }

/-- Embeds `HybridSearchEngine.load_index` on a readable stream: every one of the
seven attributes is overwritten from the unpickled dict (the
missing-file `FileNotFoundError` path concerns the filesystem, not the
data, and is outside the embedding). -/
def HybridSearchEngine.load_index (self : HybridSearchEngine)
    (index_data : IndexData) : HybridSearchEngine :=
  { tfidf_vectorizer := index_data.tfidf_vectorizer
    bm25 := index_data.bm25
    tfidf_matrix := index_data.tfidf_matrix
    documents := index_data.documents
    document_ids := index_data.document_ids
    tokenized_docs := index_data.tokenized_docs
    is_fitted := index_data.is_fitted }

/-- The module-level `find_best_matches` wrapper acting on the global
engine (the engine is passed explicitly here): `if documents:` is Python
truthiness, so both `None` and the empty list skip re-indexing, and a
raising `preprocess_documents` propagates its exception. -/
def find_best_matches_module
    (bm25Okapi : List (List String) → (List String → List ℚ))
    (tfidfFitTransform : List String → ((String → List ℚ) × List (List ℚ)))
    (engine : HybridSearchEngine) (query : String)
    (documents : Option (List Doc) := none) (top_k : Int := 10)
    (bm25_weight : ℚ := 4/10) (tfidf_weight : ℚ := 6/10) :
    Except String (List MatchResult) × HybridSearchEngine :=
  match documents with
  | some docs =>
    if docs.isEmpty then
      (engine.find_best_matches query top_k bm25_weight tfidf_weight, engine)
    else
      match HybridSearchEngine.preprocess_documents bm25Okapi tfidfFitTransform engine docs with
      | (Except.ok _, engine1) =>
        (engine1.find_best_matches query top_k bm25_weight tfidf_weight, engine1)
      | (Except.error e, engine1) => (Except.error e, engine1)
  | none => (engine.find_best_matches query top_k bm25_weight tfidf_weight, engine)

/-- Concrete stand-in for the fitted `BM25Okapi.get_scores`: raw lexical
scores `[5, 1, 1]` for a three-document corpus. -/
def bm25W : List (List String) → (List String → List ℚ) :=
  fun _ => fun _ => [5, 1, 1]

/-- Concrete stand-in for a fitted `TfidfVectorizer`: one-dimensional
query vector `[1]` and document matrix `[[3], [2], [2]]`, giving raw
vector scores `[3, 2, 2]`. -/
def tfidfW : List String → ((String → List ℚ) × List (List ℚ)) :=
  fun _ => (fun _ => [1], [[3], [2], [2]])

/-- A concrete three-document corpus. -/
def docsW : List Doc :=
  [⟨"0", "alpha beta"⟩, ⟨"1", "gamma"⟩, ⟨"2", "delta"⟩]

/-- A concrete fitted engine: the result of `preprocess_documents` on
`docsW` with the concrete scorers. -/
def engW : HybridSearchEngine :=
  (HybridSearchEngine.preprocess_documents bm25W tfidfW HybridSearchEngine.init docsW).2

/-- The error condition claimed by the spec, formalized over the
embedding: some `search` call on the engine fails with an error other
than the not-fitted condition (the code contains no `ConfigurationError`
and no weight validation at all, so no such call exists). -/
def configErrorRaised (e : HybridSearchEngine) : Prop :=
  ∃ (q : String) (k : Int) (w1 w2 : ℚ) (msg : String),
    e.find_best_matches q k w1 w2 = .error msg ∧ msg ≠ notFittedMsg

theorem mem_insertDesc {α : Type} (key : α → ℚ) (x : α) (l : List α) (a : α) :
    a ∈ insertDesc key x l ↔ a = x ∨ a ∈ l := by
  induction l with
  | nil => simp [insertDesc]
  | cons y ys ih =>
    by_cases h : key y ≤ key x
    · simp [insertDesc, h]
    · simp [insertDesc, h, ih]
      tauto

theorem length_insertDesc {α : Type} (key : α → ℚ) (x : α) (l : List α) :
    (insertDesc key x l).length = l.length + 1 := by
  induction l with
  | nil => rfl
  | cons y ys ih =>
    by_cases h : key y ≤ key x
    · simp [insertDesc, h]
    · simp [insertDesc, h, ih]

theorem length_sortDesc {α : Type} (key : α → ℚ) (l : List α) :
    (sortDesc key l).length = l.length := by
  induction l with
  | nil => rfl
  | cons x xs ih => simp [sortDesc, length_insertDesc, ih]

theorem mem_sortDesc {α : Type} (key : α → ℚ) (l : List α) (a : α) :
    a ∈ sortDesc key l ↔ a ∈ l := by
  induction l with
  | nil => simp [sortDesc]
  | cons x xs ih => simp [sortDesc, mem_insertDesc, ih]

theorem pairwise_insertDesc {α : Type} (key : α → ℚ) (x : α) (l : List α)
    (h : l.Pairwise (fun a b => key b ≤ key a)) :
    (insertDesc key x l).Pairwise (fun a b => key b ≤ key a) := by
  induction l with
  | nil => simp [insertDesc]
  | cons y ys ih =>
    rw [List.pairwise_cons] at h
    by_cases hyx : key y ≤ key x
    · rw [insertDesc, if_pos hyx, List.pairwise_cons]
      refine ⟨?_, List.pairwise_cons.mpr h⟩
      intro b hb
      rcases List.mem_cons.mp hb with rfl | hb
      · exact hyx
      · exact le_trans (h.1 b hb) hyx
    · rw [insertDesc, if_neg hyx, List.pairwise_cons]
      refine ⟨?_, ih h.2⟩
      intro b hb
      rcases (mem_insertDesc key x ys b).mp hb with rfl | hb
      · exact le_of_lt (lt_of_not_le hyx)
      · exact h.1 b hb

theorem pairwise_sortDesc {α : Type} (key : α → ℚ) (l : List α) :
    (sortDesc key l).Pairwise (fun a b => key b ≤ key a) := by
  induction l with
  | nil => simp [sortDesc]
  | cons x xs ih => exact pairwise_insertDesc key x _ ih

theorem filter_insertDesc {α : Type} (key : α → ℚ) (c : ℚ) (x : α) (l : List α) :
    (insertDesc key x l).filter (fun a => key a = c) =
      if key x = c then x :: l.filter (fun a => key a = c)
      else l.filter (fun a => key a = c) := by
  induction l with
  | nil =>
    by_cases h : key x = c <;> simp [insertDesc, h]
  | cons y ys ih =>
    by_cases hyx : key y ≤ key x
    · rw [insertDesc, if_pos hyx]
      by_cases hx : key x = c <;> simp [List.filter_cons, hx]
    · rw [insertDesc, if_neg hyx]
      by_cases hy : key y = c
      · have hx : ¬ (key x = c) := by
          intro hx
          exact hyx (le_of_eq (hy.trans hx.symm))
        simp [List.filter_cons, hy, hx, ih]
      · by_cases hx : key x = c <;> simp [List.filter_cons, hy, hx, ih]

theorem filter_sortDesc {α : Type} (key : α → ℚ) (c : ℚ) (l : List α) :
    (sortDesc key l).filter (fun a => key a = c) = l.filter (fun a => key a = c) := by
  induction l with
  | nil => rfl
  | cons x xs ih =>
    rw [sortDesc, filter_insertDesc, ih]
    by_cases hx : key x = c <;> simp [List.filter_cons, hx]

theorem foldl_min_le_init (l : List ℚ) (a : ℚ) : l.foldl min a ≤ a := by
  induction l generalizing a with
  | nil => exact le_refl a
  | cons x xs ih => exact le_trans (ih (min a x)) (min_le_left a x)

theorem foldl_min_le_mem (l : List ℚ) (a x : ℚ) (hx : x ∈ l) : l.foldl min a ≤ x := by
  induction l generalizing a with
  | nil => cases hx
  | cons y ys ih =>
    rcases List.mem_cons.mp hx with rfl | h
    · exact le_trans (foldl_min_le_init ys (min a x)) (min_le_right a x)
    · exact ih (min a y) h

theorem init_le_foldl_max (l : List ℚ) (a : ℚ) : a ≤ l.foldl max a := by
  induction l generalizing a with
  | nil => exact le_refl a
  | cons x xs ih => exact le_trans (le_max_left a x) (ih (max a x))

theorem mem_le_foldl_max (l : List ℚ) (a x : ℚ) (hx : x ∈ l) : x ≤ l.foldl max a := by
  induction l generalizing a with
  | nil => cases hx
  | cons y ys ih =>
    rcases List.mem_cons.mp hx with rfl | h
    · exact le_trans (le_max_right a x) (init_le_foldl_max ys (max a x))
    · exact ih (max a y) h

theorem npMin_le_mem (scores : List ℚ) (x : ℚ) (hx : x ∈ scores) :
    npMin scores ≤ x :=
  foldl_min_le_mem scores (scores.headD 0) x hx

theorem mem_le_npMax (scores : List ℚ) (x : ℚ) (hx : x ∈ scores) :
    x ≤ npMax scores :=
  mem_le_foldl_max scores (scores.headD 0) x hx

theorem replaceNonWord_word_or_space (c : Char) :
    isWordChar (replaceNonWord c) = true ∨ isSpaceChar (replaceNonWord c) = true := by
  unfold replaceNonWord
  by_cases h : (isWordChar c || isSpaceChar c) = true
  · rw [if_pos h]
    rcases Bool.or_eq_true_iff.mp h with h | h
    · exact Or.inl h
    · exact Or.inr h
  · rw [if_neg h]
    exact Or.inr rfl

theorem splitWS_tokens (l : List Char) :
    ∀ acc : List Char,
      (∀ c ∈ l, isWordChar c = true ∨ isSpaceChar c = true) →
      (∀ c ∈ acc, isWordChar c = true) →
      ∀ t ∈ splitWS l acc, t ≠ [] ∧ ∀ c ∈ t, isWordChar c = true := by
  induction l with
  | nil =>
    intro acc _ hacc t ht
    rw [splitWS] at ht
    by_cases hemp : acc.isEmpty
    · rw [if_pos hemp] at ht
      cases ht
    · rw [if_neg hemp] at ht
      rcases List.mem_singleton.mp ht with rfl
      refine ⟨?_, ?_⟩
      · intro h
        exact hemp (by simp [List.isEmpty_iff, List.reverse_eq_nil_iff.mp h])
      · intro c hc
        exact hacc c (List.mem_reverse.mp hc)
  | cons c cs ih =>
    intro acc hl hacc t ht
    rw [splitWS] at ht
    have hlcs : ∀ d ∈ cs, isWordChar d = true ∨ isSpaceChar d = true :=
      fun d hd => hl d (List.mem_cons_of_mem c hd)
    by_cases hsp : isSpaceChar c = true
    · rw [if_pos hsp] at ht
      by_cases hemp : acc.isEmpty
      · rw [if_pos hemp] at ht
        exact ih [] hlcs (by intro d hd; cases hd) t ht
      · rw [if_neg hemp] at ht
        rcases List.mem_cons.mp ht with rfl | ht
        · refine ⟨?_, ?_⟩
          · intro h
            exact hemp (by simp [List.isEmpty_iff, List.reverse_eq_nil_iff.mp h])
          · intro d hd
            exact hacc d (List.mem_reverse.mp hd)
        · exact ih [] hlcs (by intro d hd; cases hd) t ht
    · rw [if_neg hsp] at ht
      have hw : isWordChar c = true := by
        rcases hl c (List.mem_cons_self c cs) with h | h
        · exact h
        · exact absurd h hsp
      refine ih (c :: acc) hlcs ?_ t ht
      intro d hd
      rcases List.mem_cons.mp hd with rfl | hd
      · exact hw
      · exact hacc d hd

theorem tokenize_tokens (text : String) :
    ∀ tok ∈ _tokenize text, tok ≠ "" ∧ ∀ c ∈ tok.toList, isWordChar c = true := by
  intro tok htok
  unfold _tokenize at htok
  rcases List.mem_map.mp htok with ⟨cs, hcs, rfl⟩
  have h := splitWS_tokens (text.toList.map lowerReplace) []
    (by
      intro c hc
      rcases List.mem_map.mp hc with ⟨d, _, rfl⟩
      exact replaceNonWord_word_or_space d.toLower)
    (by intro c hc; cases hc) cs hcs
  refine ⟨?_, ?_⟩
  · intro hmk
    exact h.1 (by
      have : (String.mk cs).data = ("" : String).data := by rw [hmk]
      exact this)
  · intro c hc
    exact h.2 c hc

theorem length_combinedScores (documents : List Doc) (ids : List String)
    (bn tn : List ℚ) (w1 w2 : ℚ) :
    (combinedScores documents ids bn tn w1 w2).length = documents.length := by
  simp [combinedScores]

theorem mem_combinedScores_fusion (documents : List Doc) (ids : List String)
    (bn tn : List ℚ) (w1 w2 : ℚ) (r : MatchResult)
    (hr : r ∈ combinedScores documents ids bn tn w1 w2) :
    r.score = w1 * r.bm25_score + w2 * r.tfidf_score := by
  unfold combinedScores at hr
  rcases List.mem_map.mp hr with ⟨i, _, rfl⟩
  rfl

theorem getElem?_combinedScores (documents : List Doc) (ids : List String)
    (bn tn : List ℚ) (w1 w2 : ℚ) (i : Nat) (hi : i < documents.length) :
    (combinedScores documents ids bn tn w1 w2)[i]? =
      some { document := documents.getD i ⟨"", ""⟩
             score := w1 * bn.getD i 0 + w2 * tn.getD i 0
             bm25_score := bn.getD i 0
             tfidf_score := tn.getD i 0
             document_id := ids.getD i "" } := by
  unfold combinedScores
  rw [List.getElem?_map]
  rw [List.getElem?_range hi]
  rfl

theorem zip_self_map {α β : Type} (l : List α) (g : α → β) :
    l.zip (l.map g) = l.map (fun x => (x, g x)) := by
  induction l with
  | nil => rfl
  | cons x xs ih => simp [ih]

theorem pySlice_sublist {α : Type} (l : List α) (k : Int) :
    List.Sublist (pySlice l k) l := by
  unfold pySlice
  split
  · exact List.take_sublist _ _
  · exact List.take_sublist _ _

theorem length_pySlice {α : Type} (l : List α) (k : Int) :
    (pySlice l k).length =
      if 0 ≤ k then min k.toNat l.length else ((l.length : Int) + k).toNat := by
  unfold pySlice
  split
  · simp [List.length_take]
  · simp only [List.length_take]
    omega

theorem ranked_pairwise {α : Type} (key : α → ℚ) (l : List α) (k : Int) :
    (pySlice (sortDesc key l) k).Pairwise (fun a b => key b ≤ key a) :=
  (pairwise_sortDesc key l).sublist (pySlice_sublist _ k)

theorem ranked_filter {α : Type} (key : α → ℚ) (l : List α) (k : Int) (c : ℚ) :
    List.Sublist ((pySlice (sortDesc key l) k).filter (fun a => key a = c))
      (l.filter (fun a => key a = c)) := by
  have h := (pySlice_sublist (sortDesc key l) k).filter (fun a => decide (key a = c))
  rw [filter_sortDesc] at h
  exact h

theorem find_best_matches_eq (e : HybridSearchEngine) (q : String) (k : Int)
    (w1 w2 : ℚ) (b : List String → List ℚ) (m : List (List ℚ))
    (hf : e.is_fitted = true) (hb : e.bm25 = some b) (hm : e.tfidf_matrix = some m) :
    e.find_best_matches q k w1 w2 =
      .ok (pySlice (sortDesc (fun r => r.score)
        (combinedScores e.documents e.document_ids
          (_normalize_scores (b (_tokenize q)))
          (_normalize_scores (cosine_scores (e.tfidf_vectorizer q) m)) w1 w2)) k) := by
  unfold HybridSearchEngine.find_best_matches
  rw [hf, hb, hm]
  rfl

/-- Claim C1: for every fitted index `x` and every query, `load(save(x))`
yields an engine whose `search` returns an identical ranked result list
(same documents, same order, same combined/lexical/vector scores) as
`search` on `x`, for any `k` and weights.  `save_index` captures all
seven attributes and `load_index` overwrites all seven, so the rehydrated
engine is the original one. -/
theorem save_load_roundtrip_search_eq (x y : HybridSearchEngine) (q : String)
    (k : Int) (w1 w2 : ℚ) (hx : x.is_fitted = true) :
    (y.load_index x.save_index).find_best_matches q k w1 w2 =
      x.find_best_matches q k w1 w2 := by
  have h : y.load_index x.save_index = x := by
    cases x
    rfl
  rw [h]

/-- Witness for C1 at a concrete fitted engine, with a fresh engine as the
load target. -/
theorem save_load_roundtrip_search_eq_witness :
    engW.is_fitted = true ∧
    (HybridSearchEngine.init.load_index engW.save_index).find_best_matches
        "alpha" 5 (4/10) (6/10) =
      engW.find_best_matches "alpha" 5 (4/10) (6/10) :=
  ⟨rfl, save_load_roundtrip_search_eq engW HybridSearchEngine.init "alpha" 5 (4/10) (6/10) rfl⟩

/-- Claim C2: `find_best_matches` on an engine whose `is_fitted` flag is
still false raises the not-fitted `ValueError`; after a successful
`preprocess_documents` call it returns a result instead of raising that
condition. -/
theorem search_unfitted_error_fitted_ok (e : HybridSearchEngine) (q : String)
    (k : Int) (w1 w2 : ℚ)
    (bm25Okapi : List (List String) → (List String → List ℚ))
    (tfidfFitTransform : List String → ((String → List ℚ) × List (List ℚ)))
    (documents : List Doc) :
    (e.is_fitted = false → e.find_best_matches q k w1 w2 = .error notFittedMsg) ∧
    ((HybridSearchEngine.preprocess_documents bm25Okapi tfidfFitTransform e documents).1
        = .ok () →
      ∃ res, (HybridSearchEngine.preprocess_documents bm25Okapi tfidfFitTransform
          e documents).2.find_best_matches q k w1 w2 = .ok res) := by
  constructor
  · intro h
    unfold HybridSearchEngine.find_best_matches
    rw [h]
    rfl
  · intro h
    cases documents with
    | nil => exact absurd h (by simp [HybridSearchEngine.preprocess_documents])
    | cons d ds =>
      exact ⟨_, find_best_matches_eq _ q k w1 w2 _ _ rfl rfl rfl⟩

/-- Witness for C2: the freshly initialized engine fails with the
not-fitted error; after preprocessing the concrete corpus the same call
succeeds. -/
theorem search_unfitted_error_fitted_ok_witness :
    HybridSearchEngine.init.find_best_matches "alpha" 5 (4/10) (6/10)
        = .error notFittedMsg ∧
    ∃ res, engW.find_best_matches "alpha" 5 (4/10) (6/10) = .ok res := by
  have h := search_unfitted_error_fitted_ok HybridSearchEngine.init "alpha" 5
    (4/10) (6/10) bm25W tfidfW docsW
  exact ⟨h.1 rfl, h.2 rfl⟩

/-- Claim C4: for every non-empty raw score sequence, normalization is
min-max rescaling `(s - min) / (max - min)`: each normalized value lies
in `[0,1]`, a position holding the minimum raw score maps to `0` and one
holding the maximum to `1`; and whenever `max = min` (single-element and
all-equal sequences included) every normalized value is exactly `1/2`.
Raw and normalized values are paired positionally by `zip`. -/
theorem normalize_scores_minmax (scores : List ℚ) (h : scores ≠ []) :
    (_normalize_scores scores).length = scores.length ∧
    ∀ p ∈ scores.zip (_normalize_scores scores),
      (0 ≤ p.2 ∧ p.2 ≤ 1) ∧
      (npMax scores = npMin scores → p.2 = 1/2) ∧
      (npMax scores ≠ npMin scores →
        p.2 = (p.1 - npMin scores) / (npMax scores - npMin scores) ∧
        (p.1 = npMin scores → p.2 = 0) ∧
        (p.1 = npMax scores → p.2 = 1)) := by
  have hlen : ¬ scores.length = 0 := by
    simpa [List.length_eq_zero] using h
  by_cases heq : npMax scores = npMin scores
  · have hnorm : _normalize_scores scores = scores.map (fun _ => 1/2) := by
      unfold _normalize_scores
      rw [if_neg hlen, if_pos heq]
    refine ⟨by rw [hnorm, List.length_map], ?_⟩
    intro p hp
    rw [hnorm, zip_self_map] at hp
    rcases List.mem_map.mp hp with ⟨x, _, rfl⟩
    refine ⟨by norm_num, fun _ => rfl, fun hne => absurd heq hne⟩
  · have hnorm : _normalize_scores scores =
        scores.map (fun s => (s - npMin scores) / (npMax scores - npMin scores)) := by
      unfold _normalize_scores
      rw [if_neg hlen, if_neg heq]
    refine ⟨by rw [hnorm, List.length_map], ?_⟩
    intro p hp
    rw [hnorm, zip_self_map] at hp
    rcases List.mem_map.mp hp with ⟨x, hx, rfl⟩
    have hmn : npMin scores ≤ x := npMin_le_mem scores x hx
    have hmx : x ≤ npMax scores := mem_le_npMax scores x hx
    have hlt : npMin scores < npMax scores :=
      lt_of_le_of_ne (le_trans hmn hmx) (fun hh => heq hh.symm)
    have hd : 0 < npMax scores - npMin scores := sub_pos.mpr hlt
    refine ⟨⟨div_nonneg (sub_nonneg.mpr hmn) (le_of_lt hd), ?_⟩,
      fun hh => absurd hh heq, fun _ => ⟨rfl, ?_, ?_⟩⟩
    · exact (div_le_one hd).mpr (sub_le_sub_right hmx _)
    · intro h0
      rw [show x = npMin scores from h0, sub_self, zero_div]
    · intro h1
      rw [show x = npMax scores from h1]
      exact div_self (ne_of_gt hd)

/-- Witness for C4 at the concrete score vector `[5, 1, 1]`. -/
theorem normalize_scores_minmax_witness :
    ([5, 1, 1] : List ℚ) ≠ [] ∧ (_normalize_scores [5, 1, 1]).length = 3 :=
  ⟨by decide, (normalize_scores_minmax [5, 1, 1] (by decide)).1⟩

/-- Claim C10: `find_best_matches` never mutates the fitted engine state:
the post-state of the call (the method assigns no attribute of `self`)
agrees with the pre-state on `bm25`, `tfidf_matrix`, `tfidf_vectorizer`,
`documents`, `document_ids`, `tokenized_docs` and `is_fitted`, so
repeated searches observe the same fitted index until the next
`preprocess_documents` call replaces it. -/
theorem search_no_state_mutation (e : HybridSearchEngine) (q : String)
    (k : Int) (w1 w2 : ℚ) :
    (e.find_best_matchesS q k w1 w2).2.bm25 = e.bm25 ∧
    (e.find_best_matchesS q k w1 w2).2.tfidf_matrix = e.tfidf_matrix ∧
    (e.find_best_matchesS q k w1 w2).2.tfidf_vectorizer = e.tfidf_vectorizer ∧
    (e.find_best_matchesS q k w1 w2).2.documents = e.documents ∧
    (e.find_best_matchesS q k w1 w2).2.document_ids = e.document_ids ∧
    (e.find_best_matchesS q k w1 w2).2.tokenized_docs = e.tokenized_docs ∧
    (e.find_best_matchesS q k w1 w2).2.is_fitted = e.is_fitted :=
  ⟨rfl, rfl, rfl, rfl, rfl, rfl, rfl⟩

/-- Claim C3 counterexample: on the concrete fitted three-document engine,
`search` with `top_k = -1` returns two results, not an empty sequence —
the Python slice `combined_scores[:top_k]` with a negative bound drops
elements from the end instead of yielding nothing. -/
theorem search_negative_k_cex :
    ∃ res, engW.find_best_matches "alpha" (-1) (4/10) (6/10) = .ok res ∧
      res.length = 2 ∧ res ≠ [] := by
  refine ⟨_, find_best_matches_eq engW "alpha" (-1) (4/10) (6/10) _ _ rfl rfl rfl,
    ?_, ?_⟩
  · rw [length_pySlice, length_sortDesc, length_combinedScores]
    rfl
  · intro hnil
    have h2 := congrArg List.length hnil
    rw [length_pySlice, length_sortDesc, length_combinedScores] at h2
    exact absurd h2 (by decide)

/-- Claim C3 (amended): for a fitted corpus, `search` with `k` at least
the corpus size returns exactly `len(corpus)` results, with `0 ≤ k` it
returns `min k len(corpus)` results, with `k = 0` it returns the empty
sequence, and with negative `k` it follows Python slice semantics and
returns the first `max 0 (len(corpus) + k)` results — so a negative `k`
yields an empty sequence only when `k ≤ -len(corpus)`.  No error is
raised for any `k`. -/
theorem search_k_clamping (e : HybridSearchEngine) (q : String) (k : Int)
    (w1 w2 : ℚ) (b : List String → List ℚ) (m : List (List ℚ))
    (hf : e.is_fitted = true) (hb : e.bm25 = some b) (hm : e.tfidf_matrix = some m) :
    ∃ res, e.find_best_matches q k w1 w2 = .ok res ∧
      ((e.documents.length : Int) ≤ k → res.length = e.documents.length) ∧
      (0 ≤ k → res.length = min k.toNat e.documents.length) ∧
      (k = 0 → res = []) ∧
      (k < 0 → res.length = ((e.documents.length : Int) + k).toNat) := by
  refine ⟨_, find_best_matches_eq e q k w1 w2 b m hf hb hm, ?_, ?_, ?_, ?_⟩
  · intro hk
    rw [length_pySlice, length_sortDesc, length_combinedScores,
      if_pos (show (0:Int) ≤ k by omega)]
    omega
  · intro hk
    rw [length_pySlice, length_sortDesc, length_combinedScores, if_pos hk]
  · intro hk
    subst hk
    rfl
  · intro hk
    rw [length_pySlice, length_sortDesc, length_combinedScores,
      if_neg (show ¬ (0:Int) ≤ k by omega)]

/-- Witness for C3 at the concrete fitted engine with `k = 5 > 3`. -/
theorem search_k_clamping_witness :
    engW.is_fitted = true ∧
    ∃ res, engW.find_best_matches "alpha" 5 (4/10) (6/10) = .ok res ∧
      res.length = engW.documents.length := by
  obtain ⟨res, h1, h2, -⟩ :=
    search_k_clamping engW "alpha" 5 (4/10) (6/10) _ _ rfl rfl rfl
  exact ⟨rfl, res, h1, h2 (by decide)⟩

/-- Claim C5: the result of `search` is sorted descending by combined
score, and the ranking is stable: restricted to any fixed combined score
`c`, the returned results form an order-preserving sublist of the
corpus-ordered combined list, so documents with equal combined scores
appear in original corpus order (first-seen wins), and the functional
embedding is deterministic by construction. -/
theorem search_ranking_sorted_stable (e : HybridSearchEngine) (q : String)
    (k : Int) (w1 w2 : ℚ) (b : List String → List ℚ) (m : List (List ℚ))
    (hf : e.is_fitted = true) (hb : e.bm25 = some b) (hm : e.tfidf_matrix = some m) :
    ∃ res, e.find_best_matches q k w1 w2 = .ok res ∧
      res.Pairwise (fun r s => s.score ≤ r.score) ∧
      ∀ c : ℚ, List.Sublist (res.filter (fun r => r.score = c))
        ((combinedScores e.documents e.document_ids
            (_normalize_scores (b (_tokenize q)))
            (_normalize_scores (cosine_scores (e.tfidf_vectorizer q) m))
            w1 w2).filter (fun r => r.score = c)) :=
  ⟨_, find_best_matches_eq e q k w1 w2 b m hf hb hm,
    ranked_pairwise (fun r : MatchResult => r.score) _ k,
    fun c => ranked_filter (fun r : MatchResult => r.score) _ k c⟩

/-- Witness for C5 at the concrete fitted engine. -/
theorem search_ranking_sorted_stable_witness :
    engW.is_fitted = true ∧
    ∃ res, engW.find_best_matches "alpha" 5 (4/10) (6/10) = .ok res ∧
      res.Pairwise (fun r s => s.score ≤ r.score) := by
  obtain ⟨res, h1, h2, -⟩ :=
    search_ranking_sorted_stable engW "alpha" 5 (4/10) (6/10) _ _ rfl rfl rfl
  exact ⟨rfl, res, h1, h2⟩

/-- Claim C6 counterexample: the module-level `find_best_matches` called
with an empty document list on the fresh global engine does not index the
empty corpus (the `if documents:` guard treats `[]` as falsy) and fails
with the not-fitted error instead of returning an empty result; and a
direct `preprocess_documents` call on the empty corpus raises
`ZeroDivisionError` inside `BM25Okapi` instead of succeeding. -/
theorem index_empty_corpus_cex :
    (find_best_matches_module bm25W tfidfW HybridSearchEngine.init "anything"
        (some []) 5 (4/10) (6/10)).1 = .error notFittedMsg ∧
    (HybridSearchEngine.preprocess_documents bm25W tfidfW
        HybridSearchEngine.init []).1 = .error "ZeroDivisionError" :=
  ⟨rfl, rfl⟩

/-- Claim C6 (amended): indexing an empty corpus never reaches the
`Fitted` state: the module-level `find_best_matches` skips re-indexing
when `documents` is the (falsy) empty list, so on an engine that was
never fitted the subsequent search raises the not-fitted error rather
than returning an empty sequence; a direct `preprocess_documents` call on
the empty corpus raises `ZeroDivisionError` (division by the corpus size
in `BM25Okapi.__init__`) and leaves `is_fitted` unchanged (false). -/
theorem index_empty_corpus_behavior
    (bm25Okapi : List (List String) → (List String → List ℚ))
    (tfidfFitTransform : List String → ((String → List ℚ) × List (List ℚ)))
    (e : HybridSearchEngine) (q : String) (k : Int) (w1 w2 : ℚ)
    (hf : e.is_fitted = false) :
    (find_best_matches_module bm25Okapi tfidfFitTransform e q (some []) k w1 w2).1
        = .error notFittedMsg ∧
    (HybridSearchEngine.preprocess_documents bm25Okapi tfidfFitTransform e []).1
        = .error "ZeroDivisionError" ∧
    (HybridSearchEngine.preprocess_documents bm25Okapi tfidfFitTransform e []).2.is_fitted
        = false := by
  refine ⟨?_, rfl, hf⟩
  have hred : (find_best_matches_module bm25Okapi tfidfFitTransform e q
      (some []) k w1 w2).1 = e.find_best_matches q k w1 w2 := rfl
  rw [hred]
  unfold HybridSearchEngine.find_best_matches
  rw [hf]
  rfl

/-- Witness for C6 (amended) at the fresh engine. -/
theorem index_empty_corpus_behavior_witness :
    HybridSearchEngine.init.is_fitted = false ∧
    (find_best_matches_module bm25W tfidfW HybridSearchEngine.init "q"
        (some []) 7 (4/10) (6/10)).1 = .error notFittedMsg :=
  ⟨rfl, (index_empty_corpus_behavior bm25W tfidfW HybridSearchEngine.init "q" 7
    (4/10) (6/10) rfl).1⟩

/-- Claim C7 counterexample: Python's `\w` also matches the underscore,
so `_tokenize` keeps `'a_b'` as a single token, while the spec's wording
(replace every character that is not alphanumeric or whitespace) would
split it into `'a'` and `'b'`. -/
theorem tokenize_underscore_cex :
    _tokenize "a_b" = ["a_b"] ∧ claimTokenize "a_b" = ["a", "b"] ∧
      _tokenize "a_b" ≠ claimTokenize "a_b" := by
  refine ⟨?_, ?_, ?_⟩ <;> decide

/-- Claim C7 (amended): for every input string, `_tokenize` lowercases the
input, replaces every character that is not a word character (alphanumeric
or underscore) and not whitespace with a space, splits on whitespace and
discards empty tokens; it is deterministic and total (a plain function)
with no error conditions, the empty string yields the empty token
sequence, and every produced token is a non-empty string of word
characters. -/
theorem tokenize_amended_props (text : String) :
    _tokenize "" = [] ∧
    _tokenize "Hello, World_1!" = ["hello", "world_1"] ∧
    ∀ tok ∈ _tokenize text, tok ≠ "" ∧ ∀ c ∈ tok.toList, isWordChar c = true :=
  ⟨rfl, by decide, tokenize_tokens text⟩

/-- Witness for C7 (amended): the token `"hello"` produced for a concrete
input is non-empty. -/
theorem tokenize_amended_props_witness :
    "hello" ∈ _tokenize "Hello, World_1!" ∧ "hello" ≠ "" := by
  refine ⟨by decide, ?_⟩
  exact ((tokenize_amended_props "Hello, World_1!").2.2 "hello" (by decide)).1

/-- Claim C8: every result reported by `search` carries
`score = bm25_weight * bm25_score + tfidf_weight * tfidf_score` for
arbitrary caller-supplied weights; positionally, the combined entry for
document `i` is built from the two normalized score vectors at index `i`;
and the declared default weights are `0.4` for BM25 (lexical) and `0.6`
for TF-IDF (vector). -/
theorem search_weighted_fusion (e : HybridSearchEngine) (q : String)
    (k : Int) (w1 w2 : ℚ) (b : List String → List ℚ) (m : List (List ℚ))
    (hf : e.is_fitted = true) (hb : e.bm25 = some b) (hm : e.tfidf_matrix = some m) :
    ∃ res, e.find_best_matches q k w1 w2 = .ok res ∧
      (∀ r ∈ res, r.score = w1 * r.bm25_score + w2 * r.tfidf_score) ∧
      (∀ i, i < e.documents.length →
        (combinedScores e.documents e.document_ids
            (_normalize_scores (b (_tokenize q)))
            (_normalize_scores (cosine_scores (e.tfidf_vectorizer q) m))
            w1 w2)[i]? =
          some { document := e.documents.getD i ⟨"", ""⟩
                 score := w1 * (_normalize_scores (b (_tokenize q))).getD i 0
                   + w2 * (_normalize_scores
                       (cosine_scores (e.tfidf_vectorizer q) m)).getD i 0
                 bm25_score := (_normalize_scores (b (_tokenize q))).getD i 0
                 tfidf_score := (_normalize_scores
                   (cosine_scores (e.tfidf_vectorizer q) m)).getD i 0
                 document_id := e.document_ids.getD i "" }) ∧
      e.find_best_matches q = e.find_best_matches q 10 (4/10) (6/10) := by
  refine ⟨_, find_best_matches_eq e q k w1 w2 b m hf hb hm, ?_, ?_, rfl⟩
  · intro r hr
    have hr2 : r ∈ sortDesc (fun s : MatchResult => s.score)
        (combinedScores e.documents e.document_ids
          (_normalize_scores (b (_tokenize q)))
          (_normalize_scores (cosine_scores (e.tfidf_vectorizer q) m)) w1 w2) :=
      (pySlice_sublist _ k).subset hr
    have hr3 := (mem_sortDesc (fun s : MatchResult => s.score) _ r).mp hr2
    exact mem_combinedScores_fusion _ _ _ _ _ _ r hr3
  · intro i hi
    exact getElem?_combinedScores _ _ _ _ _ _ i hi

/-- Witness for C8 at the concrete fitted engine with deliberately
unnormalized weights. -/
theorem search_weighted_fusion_witness :
    engW.is_fitted = true ∧
    ∃ res, engW.find_best_matches "alpha" 5 (-3) 7 = .ok res ∧
      ∀ r ∈ res, r.score = (-3) * r.bm25_score + 7 * r.tfidf_score := by
  obtain ⟨res, h1, h2, -⟩ :=
    search_weighted_fusion engW "alpha" 5 (-3) 7 _ _ rfl rfl rfl
  exact ⟨rfl, res, h1, h2⟩

/-- Claim C9 counterexample: on the concrete fitted engine no choice of
query, `k` or weights — malformed or not — makes `search` report any
error distinct from the not-fitted condition: `find_best_matches`
inspects no weight parameter before using it. -/
theorem config_error_cex : ¬ configErrorRaised engW := by
  rintro ⟨q, k, w1, w2, msg, h, -⟩
  rw [find_best_matches_eq engW q k w1 w2 _ _ rfl rfl rfl] at h
  exact Except.noConfusion h

/-- Claim C9 (amended): `search` performs no validation of its weight
parameters: for every fitted engine and arbitrary (including negative or
enormous) weights it returns a result and raises nothing; the only error
condition `search` itself reports is the not-fitted one. -/
theorem search_no_weight_validation (e : HybridSearchEngine) (q : String)
    (k : Int) (w1 w2 : ℚ) (b : List String → List ℚ) (m : List (List ℚ))
    (hf : e.is_fitted = true) (hb : e.bm25 = some b) (hm : e.tfidf_matrix = some m) :
    ∃ res, e.find_best_matches q k w1 w2 = .ok res :=
  ⟨_, find_best_matches_eq e q k w1 w2 b m hf hb hm⟩

/-- Witness for C9 (amended) at the concrete fitted engine with
out-of-range weights. -/
theorem search_no_weight_validation_witness :
    engW.is_fitted = true ∧
    ∃ res, engW.find_best_matches "q" 5 (-1000) 999999 = .ok res :=
  ⟨rfl, search_no_weight_validation engW "q" 5 (-1000) 999999 _ _ rfl rfl rfl⟩
